import Mathlib

/-
Verification of the PDF constructor in src/pdf_costructor.py.

The Python source works with binary floating point; the embedding below
replaces floats by exact rationals.  Every concrete input used in a
theorem is chosen so that the floating point computation of the source
is exact (the values are dyadic), hence the rational model and the
source agree on those inputs.
-/

/-- Round half to even at integer precision: the behaviour of the Python
round builtin on a value whose binary representation is exact (ties go to
the even neighbour). -/
def roundHalfEven (q : ℚ) : ℤ :=
  if q - ⌊q⌋ < 1/2 then ⌊q⌋
  else if 1/2 < q - ⌊q⌋ then ⌊q⌋ + 1
  else if ⌊q⌋ % 2 = 0 then ⌊q⌋ else ⌊q⌋ + 1

/-- The two-decimal rounding round(x, 2) used by monthly_payment in the
source, on exact rationals. -/
def pyRound2 (q : ℚ) : ℚ := (roundHalfEven (q * 100) : ℚ) / 100

/-- Translation of monthly_payment (src/pdf_costructor.py lines 23-30),
with floats replaced by exact rationals. -/
def monthly_payment (amount : ℚ) (months : ℕ) (annual_rate : ℚ) : ℚ :=
  let r := (annual_rate / 100) / 12
  if r = 0 then pyRound2 (amount / months)
  else pyRound2 (amount * r * (1 + r) ^ months / ((1 + r) ^ months - 1))

/-- Refinement comparison definition following the words of the spec
(section 4.1): rounding to two decimal places with round-half-up. -/
def specRoundHalfUp2 (q : ℚ) : ℚ := (⌊q * 100 + 1/2⌋ : ℚ) / 100

/-- Page width in millimetres (line 106). -/
def page_w_mm : ℚ := 210

/-- Page height in millimetres (line 107). -/
def page_h_mm : ℚ := 297

/-- Cell width of the fixed 25 column grid (line 108). -/
def cell_w_mm : ℚ := page_w_mm / 25

/-- Cell height of the fixed 35 row grid (line 109). -/
def cell_h_mm : ℚ := page_h_mm / 35

/-- Grid cell to page coordinate mapping extracted from the placement
arithmetic of lines 199-200 and 223-224: one based, possibly fractional
column and row indices to millimetre coordinates. -/
def cellToPoint (col row : ℚ) : ℚ × ℚ :=
  ((col - 1) * cell_w_mm, page_h_mm - row * cell_h_mm)

/-- One bordered cell of the debug grid overlay (lines 118-125): left and
top offset plus width and height, all in millimetres. -/
structure GridCellDesc where
  left : ℚ
  top : ℚ
  width : ℚ
  height : ℚ

/-- One numbered label of the debug grid overlay (lines 126-131): left and
top offset in millimetres and the printed one based number. -/
structure GridLabelDesc where
  left : ℚ
  top : ℚ
  number : ℕ

/-- Cell descriptor at column c, row r (zero based as the source loops),
generalised from the fixed 25 by 35 grid to cols by rows. -/
def gridCellDesc (cols rows c r : ℕ) : GridCellDesc :=
  { left := (c : ℚ) * (page_w_mm / cols)
    top := (r : ℚ) * (page_h_mm / rows)
    width := page_w_mm / cols
    height := page_h_mm / rows }

/-- The nested cell enumeration of lines 119-125: outer loop over rows,
inner loop over columns. -/
def gridCells (cols rows : ℕ) : List GridCellDesc :=
  (List.range rows).flatMap (fun r =>
    (List.range cols).map (fun c => gridCellDesc cols rows c r))

/-- The numbered label row along the top edge (lines 126-128). -/
def topLabels (cols : ℕ) : List GridLabelDesc :=
  (List.range cols).map (fun (j : ℕ) =>
    { left := (j : ℚ) * (page_w_mm / cols) + 1, top := 8/10, number := j + 1 })

/-- The numbered label column along the left edge (lines 129-131). -/
def leftLabels (rows : ℕ) : List GridLabelDesc :=
  (List.range rows).map (fun (i : ℕ) =>
    { left := 8/10, top := (i : ℚ) * (page_h_mm / rows) + 1, number := i + 1 })

/-- Points per millimetre of the reportlab mm unit (72 / 25.4). -/
def mmUnit : ℚ := 360/127

/-- Pixel to millimetre conversion constant 0.264583 of lines 190 and 215
(96 DPI assumption). -/
def pxToMm : ℚ := 264583/1000000

/-- Logo scale factor 0.3375 (line 178). -/
def LOGO_SCALE : ℚ := 3375/10000

/-- Logo grid column (line 179). -/
def LOGO_COL : ℚ := 14

/-- Logo grid row (line 180). -/
def LOGO_ROW : ℚ := 8

/-- Signature scale factor 0.175 (line 183). -/
def SING1_SCALE : ℚ := 175/1000

/-- Signature grid column (line 184). -/
def SING1_COL : ℚ := 14

/-- Signature grid row 15.5 (line 185). -/
def SING1_ROW : ℚ := 31/2

/-- A drawImage operation on a reportlab overlay canvas: image name,
origin and size in points. -/
structure DrawOp where
  image : String
  x : ℚ
  y : ℚ
  width : ℚ
  height : ℚ

/-- A PDF page: physical size in points plus the drawn content; merging
an overlay appends its draw operations on top of the existing content. -/
structure Page where
  width : ℚ
  height : ℚ
  ops : List DrawOp

/-- Pixel dimensions of a successfully opened PNG file. -/
structure ImageAsset where
  widthPx : ℕ
  heightPx : ℕ

/-- The readable image assets of the working directory; none models a
missing file or a decode failure when the code opens the image. -/
structure Env where
  logo : Option ImageAsset
  sing1 : Option ImageAsset

/-- Image file name of the page 1 logo placement. -/
def logoImageName : String := "logo.png"

/-- Image file name of the page 3 signature placement. -/
def sing1ImageName : String := "sing_1.png"

/-- Success message printed at line 207. -/
def logoOkMsg : String := "logo.png added to page 1"

/-- Error message printed by the except branch at line 209. -/
def logoErrMsg : String := "error adding logo.png"

/-- Success message printed at line 231. -/
def sing1OkMsg : String := "sing_1.png added to page 3"

/-- Error message printed by the except branch at line 235. -/
def sing1ErrMsg : String := "error adding sing_1.png"

/-- Warning printed at line 233 when the document has fewer than 3
pages and the signature placement is skipped. -/
def sing1SkipMsg : String := "document too short, sing_1.png not added"

/-- The drawImage call of lines 202-206: position from the grid cell of
LOGO_COL and LOGO_ROW, natural size in millimetres from the pixel size,
scaled by LOGO_SCALE, everything converted to points. -/
def logoDrawOp (img : ImageAsset) : DrawOp :=
  { image := logoImageName
    x := (LOGO_COL - 1) * cell_w_mm * mmUnit
    y := (page_h_mm - LOGO_ROW * cell_h_mm) * mmUnit
    width := (img.widthPx : ℚ) * pxToMm * LOGO_SCALE * mmUnit
    height := (img.heightPx : ℚ) * pxToMm * LOGO_SCALE * mmUnit }

/-- The drawImage call of lines 226-230 for the page 3 signature. -/
def sing1DrawOp (img : ImageAsset) : DrawOp :=
  { image := sing1ImageName
    x := (SING1_COL - 1) * cell_w_mm * mmUnit
    y := (page_h_mm - SING1_ROW * cell_h_mm) * mmUnit
    width := (img.widthPx : ℚ) * pxToMm * SING1_SCALE * mmUnit
    height := (img.heightPx : ℚ) * pxToMm * SING1_SCALE * mmUnit }

/-- The page 1 logo block of lines 187-209: the try block opens logo.png,
indexes the first overlay buffer and draws; any failure inside (missing
or undecodable image, or no overlay buffer at index 0) is caught by the
except branch, which only prints.  Returns the produced page indexed
draw operations and the printed messages. -/
def logoStep (env : Env) (numPages : ℕ) : List (ℕ × DrawOp) × List String :=
  match env.logo with
  | none => ([], [logoErrMsg])
  | some img =>
    if numPages = 0 then ([], [logoErrMsg])
    else ([(0, logoDrawOp img)], [logoOkMsg])

/-- The page 3 signature block of lines 211-235: when at least 3 overlay
buffers exist the try block opens sing_1.png and draws on the third one,
failures caught and printed by the except branch; with fewer pages only
a warning is printed. -/
def sing1Step (env : Env) (numPages : ℕ) : List (ℕ × DrawOp) × List String :=
  if 3 ≤ numPages then
    match env.sing1 with
    | none => ([], [sing1ErrMsg])
    | some img => ([(2, sing1DrawOp img)], [sing1OkMsg])
  else ([], [sing1SkipMsg])

/-- Draw operations destined for page index i among the collected
placements. -/
def drawsAt (draws : List (ℕ × DrawOp)) (i : ℕ) : List DrawOp :=
  (draws.filter (fun d => d.fst == i)).map Prod.snd

/-- The page by page merge loop of lines 244-247: page i of the base
document receives the overlay content for index i on top and every page
is added to the writer in order. -/
def mergePages (draws : List (ℕ × DrawOp)) : ℕ → List Page → List Page
  | _, [] => []
  | i, p :: rest =>
    { p with ops := p.ops ++ drawsAt draws i } :: mergePages draws (i + 1) rest

/-- The whole overlay compositing stage of _generate_pdf_with_images for
the contrato and contratto variants (lines 158-252): returns the merged
document together with the printed messages. -/
def contratoOverlay (env : Env) (base : List Page) : List Page × List String :=
  let l := logoStep env base.length
  let s := sing1Step env base.length
  (mergePages (l.fst ++ s.fst) 0 base, l.snd ++ s.snd)

/-- The contrato variant name used by the dispatch at line 158. -/
def contratoVariant : String := "contrato"

/-- The contratto variant name used by the dispatch at line 158. -/
def contrattoVariant : String := "contratto"

/-- The garanzia variant name. -/
def garanziaVariant : String := "garanzia"

/-- The carta variant name. -/
def cartaVariant : String := "carta"

/-- Variant dispatch of _generate_pdf_with_images (lines 158 and
254-257): the overlay stage runs only for contrato and contratto; every
other variant returns the base document unchanged. -/
def generatePdfWithImages (template_name : String) (env : Env) (base : List Page) :
    List Page × List String :=
  if template_name = contratoVariant ∨ template_name = contrattoVariant then
    contratoOverlay env base
  else (base, [])

/-- File extension appended to the template name at lines 265 and 271. -/
def htmlExt : String := ".html"

/-- Translation of fix_html_layout (lines 263-273).  The argument fs
models the working directory: it maps a file name to the file contents
when the file exists.  The first read failure is caught and retried with
the historical alias; a second failure propagates as an error. -/
def fix_html_layout (fs : String → Option String) (template_name : String) :
    Except String String :=
  match fs (template_name ++ htmlExt) with
  | some content => .ok content
  | none =>
    let alt := if template_name = contrattoVariant then contratoVariant
      else if template_name = contratoVariant then contrattoVariant
      else template_name
    match fs (alt ++ htmlExt) with
    | some content => .ok content
    | none => .error (alt ++ htmlExt)

/-- Template contents used by the concrete template selector witness. -/
def witnessContent : String := "tpl"

/-- A concrete working directory holding only contratto.html. -/
def witnessFs : String → Option String :=
  fun s => if s = contrattoVariant ++ htmlExt then some witnessContent else none

/-- The data record handed to generate_contratto_pdf and
generate_carta_pdf: the optional payment field models the presence or
absence of the payment key in the Python dict. -/
structure ContractData where
  name : String
  amount : ℚ
  duration : ℕ
  tan : ℚ
  taeg : ℚ
  payment : Option ℚ

/-- The in-place dict update of generate_contratto_pdf (lines 51-52):
when the payment key is absent the computed payment is written into the
caller supplied record; the updated record is what the caller holds after
the call and what rendering receives. -/
def contrattoPrepareData (data : ContractData) : ContractData :=
  match data.payment with
  | none =>
    { data with
      payment := some (monthly_payment data.amount data.duration data.tan) }
  | some _ => data

/-- The identical in-place dict update of generate_carta_pdf
(lines 89-90). -/
def cartaPrepareData (data : ContractData) : ContractData :=
  match data.payment with
  | none =>
    { data with
      payment := some (monthly_payment data.amount data.duration data.tan) }
  | some _ => data

/-- The test data of the main harness (lines 286-293) with the optional
payment key left absent. -/
def mainTestData : ContractData :=
  { name := "Mario Rossi"
    amount := 15000
    duration := 36
    tan := 786/100
    taeg := 830/100
    payment := none }

/-- The body closing tag searched for at line 135, as a character list. -/
def bodyTag : List Char := "</body>".toList

/-- The Python membership test of line 135: does the body closing tag
occur anywhere in the string. -/
def containsBody : List Char → Bool
  | [] => false
  | c :: rest => bodyTag.isPrefixOf (c :: rest) || containsBody rest

/-- The Python str.replace call of line 136 specialised to the body tag
pattern: replace every non overlapping occurrence, scanning left to
right, without rescanning the replacement text. -/
def replaceBody (rep : List Char) : List Char → List Char
  | [] => []
  | c :: rest =>
    if bodyTag.isPrefixOf (c :: rest) then
      rep ++ replaceBody rep ((c :: rest).drop bodyTag.length)
    else c :: replaceBody rep rest
termination_by s => s.length
decreasing_by
  · simp [bodyTag]
    omega
  · simp

/-- Decomposition of a string at the non overlapping, left to right
occurrences of the body tag, as the Python str.split would produce it;
used to characterise replaceBody. -/
def splitBody : List Char → List (List Char)
  | [] => [[]]
  | c :: rest =>
    if bodyTag.isPrefixOf (c :: rest) then
      [] :: splitBody ((c :: rest).drop bodyTag.length)
    else
      match splitBody rest with
      | [] => [[c]]
      | part :: parts => (c :: part) :: parts
termination_by s => s.length
decreasing_by
  · simp [bodyTag]
    omega
  · simp

/-- Joining a part list with a separator, as the Python str.join. -/
def joinWith (sep : List Char) : List (List Char) → List Char
  | [] => []
  | [p] => p
  | p :: ps => p ++ sep ++ joinWith sep ps

/-- The overlay insertion of lines 134-138: when the body closing tag
occurs, every occurrence is replaced by the grid markup followed by the
tag; otherwise the grid markup is appended at the very end. -/
def insertGridOverlay (grid html : List Char) : List Char :=
  if containsBody html then replaceBody (grid ++ bodyTag) html
  else html ++ grid

/-- Concrete grid markup for the insertion witness. -/
def gridMark : List Char := "X".toList

/-- Concrete page source holding the body closing tag twice. -/
def twoBodyHtml : List Char := "<p></body><q></body>".toList

/-- Concrete page source holding no body closing tag. -/
def noBodyHtml : List Char := "<p>".toList

lemma length_range_flatMap_map {α : Type} (rows cols : ℕ) (f : ℕ → ℕ → α) :
    ((List.range rows).flatMap (fun r => (List.range cols).map (f r))).length =
      cols * rows := by
  induction rows with
  | zero => simp
  | succ n ih =>
    simp only [List.range_succ, List.flatMap_append, List.length_append,
      List.flatMap_cons, List.flatMap_nil, List.append_nil, List.length_map,
      List.length_range]
    rw [ih]
    ring

lemma mergePages_length (draws : List (ℕ × DrawOp)) (i : ℕ) (base : List Page) :
    (mergePages draws i base).length = base.length := by
  induction base generalizing i with
  | nil => rfl
  | cons p rest ih => simp [mergePages, ih]

lemma mergePages_getElem? (draws : List (ℕ × DrawOp)) (i k : ℕ) (base : List Page) :
    (mergePages draws i base)[k]? =
      (base[k]?).map (fun p => { p with ops := p.ops ++ drawsAt draws (i + k) }) := by
  induction base generalizing i k with
  | nil => simp [mergePages]
  | cons p rest ih =>
    cases k with
    | zero => simp [mergePages]
    | succ m =>
      simp only [mergePages, List.getElem?_cons_succ, ih]
      have h : i + (m + 1) = (i + 1) + m := by omega
      rw [h]

lemma drawsAt_nil (i : ℕ) : drawsAt [] i = [] := rfl

lemma drawsAt_cons (j : ℕ) (op : DrawOp) (rest : List (ℕ × DrawOp)) (i : ℕ) :
    drawsAt ((j, op) :: rest) i =
      if j = i then op :: drawsAt rest i else drawsAt rest i := by
  by_cases h : j = i <;> simp [drawsAt, h]

lemma drawsAt_append (a b : List (ℕ × DrawOp)) (k : ℕ) :
    drawsAt (a ++ b) k = drawsAt a k ++ drawsAt b k := by
  simp [drawsAt, List.filter_append]

lemma drawsAt_steps (env : Env) (n k : ℕ) :
    drawsAt ((logoStep env n).fst ++ (sing1Step env n).fst) k =
      (match env.logo with
        | some img => if n ≠ 0 ∧ 0 = k then [logoDrawOp img] else []
        | none => []) ++
      (match env.sing1 with
        | some img => if 3 ≤ n ∧ 2 = k then [sing1DrawOp img] else []
        | none => []) := by
  rcases env with ⟨logo, sing1⟩
  rcases logo with _ | img <;> rcases sing1 with _ | img2 <;>
    by_cases hn0 : n = 0 <;> by_cases hn3 : 3 ≤ n <;>
      (simp [logoStep, sing1Step, hn0, hn3, drawsAt_append, drawsAt_cons, drawsAt_nil];
        all_goals (by_cases hk0 : (0 : ℕ) = k <;> simp [hk0]))

lemma splitBody_ne_nil (s : List Char) : splitBody s ≠ [] := by
  induction s using splitBody.induct with
  | _ => simp_all [splitBody]

lemma joinWith_head_cons (sep : List Char) (c : Char) (p : List Char)
    (ps : List (List Char)) :
    joinWith sep ((c :: p) :: ps) = c :: joinWith sep (p :: ps) := by
  cases ps <;> simp [joinWith]

lemma joinWith_head_prefix (sep p : List Char) (ps : List (List Char)) :
    p <+: joinWith sep (p :: ps) := by
  cases ps with
  | nil => simp [joinWith]
  | cons q qs =>
    simp only [joinWith]
    rw [List.append_assoc]
    exact List.prefix_append p _

lemma joinWith_splitBody (s : List Char) : joinWith bodyTag (splitBody s) = s := by
  induction s using splitBody.induct with
  | case1 => simp [splitBody, joinWith]
  | case2 c rest h ih =>
    rw [splitBody]
    rw [if_pos h]
    obtain ⟨q, qs, hq⟩ : ∃ q qs, splitBody ((c :: rest).drop bodyTag.length) = q :: qs := by
      rcases hs : splitBody ((c :: rest).drop bodyTag.length) with _ | ⟨q, qs⟩
      · exact absurd hs (splitBody_ne_nil _)
      · exact ⟨q, qs, rfl⟩
    rw [hq]
    rw [hq] at ih
    simp only [joinWith, List.nil_append]
    rw [ih]
    exact List.prefix_iff_eq_append.mp (List.isPrefixOf_iff_prefix.mp h)
  | case3 c rest h hmatch =>
    exact absurd hmatch (splitBody_ne_nil rest)
  | case4 c rest h part parts hmatch ih =>
    rw [splitBody, if_neg h, hmatch]
    rw [hmatch] at ih
    rw [joinWith_head_cons, ih]

lemma replaceBody_eq_joinWith (rep s : List Char) :
    replaceBody rep s = joinWith rep (splitBody s) := by
  induction s using splitBody.induct with
  | case1 => simp [splitBody, replaceBody, joinWith]
  | case2 c rest h ih =>
    rw [splitBody, if_pos h, replaceBody, if_pos h]
    obtain ⟨q, qs, hq⟩ : ∃ q qs, splitBody ((c :: rest).drop bodyTag.length) = q :: qs := by
      rcases hs : splitBody ((c :: rest).drop bodyTag.length) with _ | ⟨q, qs⟩
      · exact absurd hs (splitBody_ne_nil _)
      · exact ⟨q, qs, rfl⟩
    rw [hq]
    rw [hq] at ih
    simp only [joinWith, List.nil_append]
    rw [ih]
  | case3 c rest h hmatch =>
    exact absurd hmatch (splitBody_ne_nil rest)
  | case4 c rest h part parts hmatch ih =>
    rw [splitBody, if_neg h, hmatch, replaceBody, if_neg h]
    rw [hmatch] at ih
    rw [joinWith_head_cons, ih]

lemma containsBody_splitBody_parts (s : List Char) :
    ∀ part ∈ splitBody s, containsBody part = false := by
  induction s using splitBody.induct with
  | case1 =>
    intro part hp
    simp [splitBody] at hp
    simp [hp, containsBody]
  | case2 c rest h ih =>
    intro part hp
    rw [splitBody, if_pos h] at hp
    rcases List.mem_cons.mp hp with h1 | h2
    · simp [h1, containsBody]
    · exact ih part h2
  | case3 c rest h hmatch =>
    exact absurd hmatch (splitBody_ne_nil rest)
  | case4 c rest h part parts hmatch ih =>
    intro q hq
    rw [splitBody, if_neg h, hmatch] at hq
    rcases List.mem_cons.mp hq with h1 | h2
    · subst h1
      have hpart : containsBody part = false := by
        refine ih part ?_
        rw [hmatch]
        exact List.mem_cons_self part parts
      have hnp : ¬ bodyTag.isPrefixOf (c :: part) = true := by
        intro hp
        refine h ?_
        have hpr : part <+: rest := by
          have hj := joinWith_head_prefix bodyTag part parts
          rw [← hmatch, joinWith_splitBody rest] at hj
          exact hj
        have hbp : bodyTag <+: c :: rest := by
          refine (List.isPrefixOf_iff_prefix.mp hp).trans ?_
          exact List.cons_prefix_cons.mpr ⟨rfl, hpr⟩
        exact List.isPrefixOf_iff_prefix.mpr hbp
      rw [containsBody]
      simp [hpart, hnp]
    · refine ih q ?_
      rw [hmatch]
      exact List.mem_cons_of_mem part h2

/-- Claim C1: the zero-rate branch of monthly_payment is claimed to round
principal / months to two decimals with round-half-up.  The code instead
uses the Python round builtin, which rounds ties to even.  At principal
0.25, months 2 (both dyadic, so the float computation is exact) the code
yields 0.12 while the round-half-up value of 0.125 is 0.13. -/
theorem c1_monthly_payment_zero_rate_rounds_ties_to_even :
    monthly_payment (1/4) 2 0 = 12/100 ∧
    specRoundHalfUp2 ((1/4) / 2) = 13/100 ∧
    (12/100 : ℚ) ≠ 13/100 := by
  refine ⟨?_, ?_, by norm_num⟩
  · unfold monthly_payment pyRound2 roundHalfEven
    norm_num
  · unfold specRoundHalfUp2
    norm_num

/-- Claim C2: the nonzero-rate branch follows the amortization formula but
rounds with the Python round builtin (ties to even), not round-half-up: at
principal 1, months 1, rate 150 (all dyadic, float-exact) the formula value
is 1.125, the code yields 1.12 and round-half-up yields 1.13.  The golden
value monthly_payment(15000, 36, 7.86) is 469.08, where both rounding modes
agree, so the golden part of the claim does hold. -/
theorem c2_monthly_payment_formula_rounds_ties_to_even_golden_469_08 :
    monthly_payment 1 1 150 = 112/100 ∧
    specRoundHalfUp2 (1 * ((150/100)/12) * (1 + (150/100)/12) ^ 1 /
      ((1 + (150/100)/12) ^ 1 - 1)) = 113/100 ∧
    (112/100 : ℚ) ≠ 113/100 ∧
    monthly_payment 15000 36 (786/100) = 46908/100 ∧
    specRoundHalfUp2 (15000 * (((786/100)/100)/12) * (1 + ((786/100)/100)/12) ^ 36 /
      ((1 + ((786/100)/100)/12) ^ 36 - 1)) = 46908/100 := by
  refine ⟨?_, ?_, by norm_num, ?_, ?_⟩
  · unfold monthly_payment pyRound2 roundHalfEven
    norm_num
  · unfold specRoundHalfUp2
    norm_num
  · unfold monthly_payment pyRound2 roundHalfEven
    norm_num
  · unfold specRoundHalfUp2
    norm_num

/-- Claim C3: on the fixed 210 by 297 millimetre page with the 25 by 35
grid, the cell to coordinate mapping sends a one based, possibly
fractional column c and row r to x = (c - 1) times the cell width and
y = page height minus r times the cell height, and at the grid corners
cell (1, 1) maps to (0, page height minus cell height) while cell
(25, 35) maps to ((25 - 1) times cell width, 0). -/
theorem c3_cellToPoint_formula_and_boundaries :
    (∀ c r : ℚ, cellToPoint c r = ((c - 1) * cell_w_mm, page_h_mm - r * cell_h_mm)) ∧
    cellToPoint 1 1 = (0, page_h_mm - cell_h_mm) ∧
    cellToPoint 25 35 = ((25 - 1) * cell_w_mm, 0) := by
  refine ⟨fun c r => rfl, ?_, ?_⟩
  · unfold cellToPoint cell_h_mm cell_w_mm page_h_mm page_w_mm
    norm_num
  · unfold cellToPoint cell_h_mm cell_w_mm page_h_mm page_w_mm
    norm_num

/-- Claim C9: the grid overlay enumeration is a deterministic nested
enumeration producing exactly cols times rows cell descriptors and
cols plus rows label descriptors for every grid size, in particular 875
cells and 60 labels for the fixed 25 by 35 grid. -/
theorem c9_grid_enumeration_counts :
    (∀ cols rows : ℕ,
      (gridCells cols rows).length = cols * rows ∧
      (topLabels cols).length + (leftLabels rows).length = cols + rows) ∧
    (gridCells 25 35).length = 875 ∧
    (topLabels 25).length + (leftLabels 35).length = 60 := by
  have h : ∀ cols rows : ℕ,
      (gridCells cols rows).length = cols * rows ∧
      (topLabels cols).length + (leftLabels rows).length = cols + rows := by
    intro cols rows
    constructor
    · unfold gridCells
      exact length_range_flatMap_map rows cols _
    · simp [topLabels, leftLabels]
  refine ⟨h, ?_, (h 25 35).2⟩
  rw [(h 25 35).1]

/-- Claim C4: for the contrato and contratto variant no individual
placement problem aborts the overlay stage: a full length document is
always returned; when the base document has fewer than 3 pages the page 3
signature placement is skipped with a warning and every page other than
page 1 passes through untouched; a failure to open either image is
reported in the printed messages, leaves the corresponding page
unmodified and does not prevent the other in-range placement from being
applied. -/
theorem c4_contrato_overlay_error_policy (env : Env) (base : List Page) :
    ((contratoOverlay env base).fst).length = base.length ∧
    (base.length < 3 → sing1SkipMsg ∈ (contratoOverlay env base).snd ∧
      ∀ k : ℕ, k ≠ 0 → ((contratoOverlay env base).fst)[k]? = base[k]?) ∧
    (env.sing1 = none → 3 ≤ base.length →
      sing1ErrMsg ∈ (contratoOverlay env base).snd ∧
      ((contratoOverlay env base).fst)[2]? = base[2]?) ∧
    (env.logo = none → logoErrMsg ∈ (contratoOverlay env base).snd ∧
      ((contratoOverlay env base).fst)[0]? = base[0]?) ∧
    (∀ img, env.logo = some img → base.length ≠ 0 →
      ((contratoOverlay env base).fst)[0]? =
        (base[0]?).map (fun p => { p with ops := p.ops ++ [logoDrawOp img] })) ∧
    (∀ img, env.sing1 = some img → 3 ≤ base.length →
      ((contratoOverlay env base).fst)[2]? =
        (base[2]?).map (fun p => { p with ops := p.ops ++ [sing1DrawOp img] })) := by
  refine ⟨mergePages_length _ _ _, fun hlt => ⟨?_, fun k hk => ?_⟩,
    fun hs hn => ⟨?_, ?_⟩, fun hl => ⟨?_, ?_⟩, fun img hl hn => ?_, fun img hs hn => ?_⟩
  · have h3 : ¬ 3 ≤ base.length := by omega
    simp [contratoOverlay, sing1Step, h3]
  · have h3 : ¬ 3 ≤ base.length := by omega
    have hk0 : ¬ (0 : ℕ) = k := fun h => hk h.symm
    rcases henv : env.logo with _ | img <;> rcases hsi : env.sing1 with _ | img2 <;>
      cases hbk : base[k]? <;>
        simp [contratoOverlay, mergePages_getElem?, drawsAt_steps, henv, hsi, hk0, h3, hbk]
  · simp [contratoOverlay, sing1Step, hs, hn]
  · rcases henv : env.logo with _ | img <;>
      cases hbk : base[2]? <;>
        simp [contratoOverlay, mergePages_getElem?, drawsAt_steps, henv, hs, hbk]
  · rcases hsi : env.sing1 with _ | img <;>
      by_cases hn3 : 3 ≤ base.length <;>
        simp [contratoOverlay, logoStep, sing1Step, hl, hsi, hn3]
  · rcases hsi : env.sing1 with _ | img2 <;>
      cases hbk : base[0]? <;>
        simp [contratoOverlay, mergePages_getElem?, drawsAt_steps, hl, hsi, hbk]
  · rcases hsi : env.sing1 with _ | img2 <;>
      cases hbk : base[0]? <;>
        simp [contratoOverlay, mergePages_getElem?, drawsAt_steps, hl, hsi, hn, hbk]
  · rcases henv : env.logo with _ | img2 <;>
      cases hbk : base[2]? <;>
        simp [contratoOverlay, mergePages_getElem?, drawsAt_steps, henv, hs, hn, hbk]

/-- Witness for claim C4 at a concrete one page document with both image
assets unreadable: the single page document is returned whole, the
signature skip warning and the logo error are both reported, and pages
other than page 1 are untouched. -/
theorem c4_contrato_overlay_error_policy_witness :
    (sing1SkipMsg ∈ (contratoOverlay ⟨none, none⟩ [⟨595, 842, []⟩]).snd ∧
      ∀ k : ℕ, k ≠ 0 →
        ((contratoOverlay ⟨none, none⟩ [⟨595, 842, []⟩]).fst)[k]? =
          (([⟨595, 842, []⟩] : List Page))[k]?) ∧
    logoErrMsg ∈ (contratoOverlay ⟨none, none⟩ [⟨595, 842, []⟩]).snd :=
  ⟨(c4_contrato_overlay_error_policy ⟨none, none⟩ [⟨595, 842, []⟩]).2.1 (by simp),
    ((c4_contrato_overlay_error_policy ⟨none, none⟩ [⟨595, 842, []⟩]).2.2.2.1 rfl).1⟩

/-- Claim C5: the overlay compositing stage of the contrato and contratto
variant preserves the page count, preserves every page dimension, carries
every base page into the output in order, and a page receiving no overlay
content passes through unchanged. -/
theorem c5_contrato_overlay_preserves_pages (env : Env) (base : List Page) :
    ((contratoOverlay env base).fst).length = base.length ∧
    (∀ k : ℕ, ((contratoOverlay env base).fst)[k]?.map Page.width =
        (base[k]?).map Page.width ∧
      ((contratoOverlay env base).fst)[k]?.map Page.height =
        (base[k]?).map Page.height) ∧
    (∀ k : ℕ, k ≠ 0 → k ≠ 2 → ((contratoOverlay env base).fst)[k]? = base[k]?) := by
  refine ⟨mergePages_length _ _ _, fun k => ?_, fun k h0 h2 => ?_⟩
  · cases hbk : base[k]? <;>
      simp [contratoOverlay, mergePages_getElem?, hbk]
  · have hk0 : ¬ (0 : ℕ) = k := fun h => h0 h.symm
    have hk2 : ¬ (2 : ℕ) = k := fun h => h2 h.symm
    rcases henv : env.logo with _ | img <;> rcases hsi : env.sing1 with _ | img2 <;>
      cases hbk : base[k]? <;>
        simp [contratoOverlay, mergePages_getElem?, drawsAt_steps, henv, hsi, hk0, hk2, hbk]

/-- Witness for claim C5 at a concrete one page document: the page count
is preserved and a page index receiving no overlay passes through. -/
theorem c5_contrato_overlay_preserves_pages_witness :
    ((contratoOverlay ⟨none, none⟩ [⟨595, 842, []⟩]).fst).length = 1 ∧
    ((contratoOverlay ⟨none, none⟩ [⟨595, 842, []⟩]).fst)[1]? =
      (([⟨595, 842, []⟩] : List Page))[1]? :=
  ⟨(c5_contrato_overlay_preserves_pages ⟨none, none⟩ [⟨595, 842, []⟩]).1,
    (c5_contrato_overlay_preserves_pages ⟨none, none⟩ [⟨595, 842, []⟩]).2.2 1
      (by decide) (by decide)⟩

/-- Claim C7: for every template variant other than contrato and
contratto the image overlay stage is skipped entirely and the base
document is returned unchanged, with nothing printed. -/
theorem c7_other_variants_return_base_unchanged (template_name : String)
    (env : Env) (base : List Page)
    (h1 : template_name ≠ contratoVariant) (h2 : template_name ≠ contrattoVariant) :
    generatePdfWithImages template_name env base = (base, []) := by
  simp [generatePdfWithImages, h1, h2]

/-- Witness for claim C7: the garanzia guarantee letter variant returns
the base document unchanged with no overlay applied. -/
theorem c7_other_variants_return_base_unchanged_witness :
    generatePdfWithImages garanziaVariant ⟨none, none⟩ [⟨595, 842, []⟩] =
      ([⟨595, 842, []⟩], []) :=
  c7_other_variants_return_base_unchanged garanziaVariant ⟨none, none⟩
    [⟨595, 842, []⟩] (by decide) (by decide)

/-- Claim C6: the template selector reads the file named literally after
the template; when that file is missing the two historical aliases
contrato and contratto fall back to each other; any other missing name
fails with a file-not-found error and no content is produced. -/
theorem c6_template_lookup_and_fallback (fs : String → Option String)
    (template_name : String) :
    (∀ c, fs (template_name ++ htmlExt) = some c →
      fix_html_layout fs template_name = .ok c) ∧
    (∀ c, fs (contratoVariant ++ htmlExt) = none →
      fs (contrattoVariant ++ htmlExt) = some c →
      fix_html_layout fs contratoVariant = .ok c) ∧
    (∀ c, fs (contrattoVariant ++ htmlExt) = none →
      fs (contratoVariant ++ htmlExt) = some c →
      fix_html_layout fs contrattoVariant = .ok c) ∧
    (template_name ≠ contratoVariant → template_name ≠ contrattoVariant →
      fs (template_name ++ htmlExt) = none →
      fix_html_layout fs template_name = .error (template_name ++ htmlExt)) := by
  have hne : contratoVariant ≠ contrattoVariant := by decide
  refine ⟨fun c hc => ?_, fun c h1 h2 => ?_, fun c h1 h2 => ?_, fun h1 h2 h3 => ?_⟩
  · simp [fix_html_layout, hc]
  · simp [fix_html_layout, h1, h2, hne]
  · simp [fix_html_layout, h1, h2, hne]
  · simp [fix_html_layout, h1, h2, h3]

/-- Witness for claim C6 on a concrete directory holding only
contratto.html: the contrato request succeeds through the fallback and a
carta request fails with the file name in the error. -/
theorem c6_template_lookup_and_fallback_witness :
    fix_html_layout witnessFs contratoVariant = .ok witnessContent ∧
    fix_html_layout witnessFs cartaVariant = .error (cartaVariant ++ htmlExt) :=
  ⟨(c6_template_lookup_and_fallback witnessFs contratoVariant).2.1 witnessContent
      (by decide) (by decide),
    (c6_template_lookup_and_fallback witnessFs cartaVariant).2.2.2
      (by decide) (by decide) (by decide)⟩

/-- Claim C8 counterexample: generation does not leave the caller
supplied data record unchanged.  On the concrete record without a
payment key, generate_contratto_pdf writes the computed payment into the
record, so the record after the call differs from the record before. -/
theorem c8_data_record_mutated_counterexample :
    contrattoPrepareData mainTestData ≠ mainTestData := by
  intro h
  have hp := congrArg ContractData.payment h
  simp [contrattoPrepareData, mainTestData] at hp

/-- Claim C8 amended: when the payment field is present the supplied
value is used as-is and the caller record is unchanged; when it is
absent the payment is computed and written into the caller supplied
record, mutating it. -/
theorem c8_payment_field_policy (d : ContractData) :
    (∀ p, d.payment = some p →
      contrattoPrepareData d = d ∧ (contrattoPrepareData d).payment = some p ∧
      cartaPrepareData d = d ∧ (cartaPrepareData d).payment = some p) ∧
    (d.payment = none →
      contrattoPrepareData d =
        { d with payment := some (monthly_payment d.amount d.duration d.tan) } ∧
      cartaPrepareData d =
        { d with payment := some (monthly_payment d.amount d.duration d.tan) }) := by
  refine ⟨fun p hp => ?_, fun hn => ?_⟩
  · simp [contrattoPrepareData, cartaPrepareData, hp]
  · simp [contrattoPrepareData, cartaPrepareData, hn]

/-- Witness for the amended claim C8: with a supplied payment of 500 the
record is unchanged, and without one the computed payment is written
into the record. -/
theorem c8_payment_field_policy_witness :
    contrattoPrepareData { mainTestData with payment := some 500 } =
      { mainTestData with payment := some 500 } ∧
    (contrattoPrepareData mainTestData).payment =
      some (monthly_payment mainTestData.amount mainTestData.duration
        mainTestData.tan) := by
  refine ⟨((c8_payment_field_policy
    { mainTestData with payment := some 500 }).1 500 rfl).1, ?_⟩
  rw [((c8_payment_field_policy mainTestData).2 rfl).1]

/-- Claim C10: when the page source holds the body closing tag, the grid
overlay markup is inserted immediately before every non overlapping
occurrence (a replace-all: the decomposition at the occurrences is
rejoined with the markup prefixed to each tag), and when the source
holds no body closing tag the markup is appended at the very end. -/
theorem c10_grid_markup_inserted_before_every_body_tag (grid html : List Char) :
    (containsBody html = true →
      insertGridOverlay grid html = joinWith (grid ++ bodyTag) (splitBody html) ∧
      joinWith bodyTag (splitBody html) = html ∧
      ∀ part ∈ splitBody html, containsBody part = false) ∧
    (containsBody html = false → insertGridOverlay grid html = html ++ grid) := by
  constructor
  · intro hc
    refine ⟨?_, joinWith_splitBody html, containsBody_splitBody_parts html⟩
    rw [insertGridOverlay, if_pos (by simp [hc])]
    exact replaceBody_eq_joinWith _ _
  · intro hc
    rw [insertGridOverlay, if_neg (by simp [hc])]

/-- Witness for claim C10 on a source holding the body tag twice and on
a source without the tag. -/
theorem c10_grid_markup_inserted_before_every_body_tag_witness :
    insertGridOverlay gridMark twoBodyHtml =
      joinWith (gridMark ++ bodyTag) (splitBody twoBodyHtml) ∧
    insertGridOverlay gridMark noBodyHtml = noBodyHtml ++ gridMark :=
  ⟨((c10_grid_markup_inserted_before_every_body_tag gridMark twoBodyHtml).1
      (by decide)).1,
    (c10_grid_markup_inserted_before_every_body_tag gridMark noBodyHtml).2
      (by decide)⟩
